import Mathlib

/-!
# tree-sitter-modelica: the C binding header

The repository's C source is the binding header
`bindings/c/tree-sitter-modelica.h`.  It contains no function body: it is a
sequence of preprocessor directives and two declarations.  The embedding below
keeps the header line by line (`header`), runs the conditional-inclusion
directives over it (`preprocess`) and answers questions about the resulting
declarations (`lookupFun`, `structMembers`, `memberType`, `canWriteThrough`).
Macro replacement inside declaration lines is not modelled; `headerTokens`
lists the tokens it would apply to, and statements over arbitrary macro sets
assume that none of them is defined.
-/

namespace TreeSitterModelica

/-! ## Declarations -/

/-- C types that can occur in the declarations of the header. -/
inductive CType where
  | void
  | structTag (tag : String)
  | typedefName (name : String)
  | const (t : CType)
  | pointer (t : CType)
  deriving DecidableEq, Repr

/-- Parameter list of a function declarator: `(void)`, `()` or a list of
parameter types. -/
inductive Params where
  | voidList
  | unspecified
  | typed (ps : List CType)
  deriving DecidableEq, Repr

/-- Declarations at file scope.  `structDef` (a struct with its member list)
does not occur in the header; it is part of the data type so that a header
which did define the struct would be told apart from this one. -/
inductive Decl where
  | typedefStruct (tag : String) (name : String)
  | structDef (tag : String) (members : List (String × CType))
  | funProto (ret : CType) (name : String) (params : Params)
  | linkageOpen (lang : String)
  | linkageClose
  deriving DecidableEq, Repr

/-- One physical line of the header. -/
inductive Line where
  | ifndef (m : String)
  | ifdef (m : String)
  | define (m : String)
  | endif
  | blank
  | decl (d : Decl)
  deriving DecidableEq, Repr

/-- The include guard macro of the header. -/
def guardMacro : String := "TREE_SITTER_MODELICA_H_"

/-- The type written `const TSLanguage *` in the header. -/
def handleType : CType := .pointer (.const (.typedefName "TSLanguage"))

/-- The header `bindings/c/tree-sitter-modelica.h`, lines 1 to 16. -/
def header : List Line :=
  [ Line.ifndef "TREE_SITTER_MODELICA_H_"                               -- 1
  , .define "TREE_SITTER_MODELICA_H_"                                   -- 2
  , .blank                                                              -- 3
  , .decl (.typedefStruct "TSLanguage" "TSLanguage")                    -- 4
  , .blank                                                              -- 5
  , Line.ifdef "__cplusplus"                                            -- 6
  , .decl (.linkageOpen "C")                                            -- 7
  , .endif                                                              -- 8
  , .blank                                                              -- 9
  , .decl (.funProto (.pointer (.const (.typedefName "TSLanguage")))
      "tree_sitter_modelica" .voidList)                                 -- 10
  , .blank                                                              -- 11
  , Line.ifdef "__cplusplus"                                            -- 12
  , .decl (.linkageClose)                                               -- 13
  , .endif                                                              -- 14
  , .blank                                                              -- 15
  , .endif ]                                                            -- 16

/-! ## Conditional inclusion -/

/-- A line is live when every enclosing conditional group is taken. -/
def live (stack : List Bool) : Bool := stack.all id

/-- Run the directives: `defs` are the macros defined so far, `stack` holds
one flag per open `#ifdef`/`#ifndef` group.  The result is the list of
declarations that survive.  Only conditional inclusion is modelled: a macro
name inside a declaration line is not replaced, so the result is what the
preprocessor produces only when no token of a declaration line (see
`headerTokens`) is a defined macro. -/
def preprocessAux : List String → List Bool → List Line → List Decl
  | _, _, [] => []
  | defs, stack, .ifndef m :: rest =>
      preprocessAux defs (decide (m ∉ defs) :: stack) rest
  | defs, stack, .ifdef m :: rest =>
      preprocessAux defs (decide (m ∈ defs) :: stack) rest
  | defs, stack, .define m :: rest =>
      preprocessAux (if live stack then m :: defs else defs) stack rest
  | defs, stack, .endif :: rest => preprocessAux defs stack.tail rest
  | defs, stack, .blank :: rest => preprocessAux defs stack rest
  | defs, stack, .decl d :: rest =>
      if live stack then d :: preprocessAux defs stack rest
      else preprocessAux defs stack rest

/-- The declarations a translation unit sees when it includes the header with
the macros `defs` already defined. -/
def preprocess (defs : List String) (lines : List Line) : List Decl :=
  preprocessAux defs [] lines

/-! ## Tokens subject to macro replacement -/

/-- The keyword and identifier tokens a type is written with. -/
def typeTokens : CType → List String
  | .void => ["void"]
  | .structTag tag => ["struct", tag]
  | .typedefName name => [name]
  | .const t => "const" :: typeTokens t
  | .pointer t => typeTokens t

/-- The keyword and identifier tokens of a list of parameter types. -/
def typeListTokens : List CType → List String
  | [] => []
  | t :: ts => typeTokens t ++ typeListTokens ts

/-- The keyword and identifier tokens of a parameter list. -/
def paramTokens : Params → List String
  | .voidList => ["void"]
  | .unspecified => []
  | .typed ps => typeListTokens ps

/-- The keyword and identifier tokens of a member list. -/
def memberTokens : List (String × CType) → List String
  | [] => []
  | (m, t) :: ms => typeTokens t ++ m :: memberTokens ms

/-- The keyword and identifier tokens of a declaration, in source order.
String literals and punctuation are not subject to macro replacement and are
left out. -/
def declTokens : Decl → List String
  | .typedefStruct tag name => ["typedef", "struct", tag, name]
  | .structDef tag ms => "struct" :: tag :: memberTokens ms
  | .funProto ret name ps => typeTokens ret ++ name :: paramTokens ps
  | .linkageOpen _ => ["extern"]
  | .linkageClose => []

/-- The tokens of a line that macro replacement applies to: none on a
directive or blank line. -/
def lineTokens : Line → List String
  | .decl d => declTokens d
  | _ => []

/-- All tokens of a list of lines that macro replacement applies to. -/
def tokensOf : List Line → List String
  | [] => []
  | l :: ls => lineTokens l ++ tokensOf ls

/-- The tokens of the header's declaration lines 4, 7, 10 and 13. -/
def headerTokens : List String := tokensOf header

/-! ## Questions about a list of declarations -/

/-- Return type and parameter list of the function declared under `name`. -/
def lookupFun : List Decl → String → Option (CType × Params)
  | [], _ => none
  | .funProto ret n ps :: rest, name =>
      if n = name then some (ret, ps) else lookupFun rest name
  | _ :: rest, name => lookupFun rest name

/-- The struct tag a typedef name stands for. -/
def resolveTypedef : List Decl → String → Option String
  | [], _ => none
  | .typedefStruct tag n :: rest, name =>
      if n = name then some tag else resolveTypedef rest name
  | _ :: rest, name => resolveTypedef rest name

/-- Whether the struct tag is declared at all (complete or not). -/
def structDeclared : List Decl → String → Bool
  | [], _ => false
  | .typedefStruct t _ :: rest, tag => t = tag || structDeclared rest tag
  | .structDef t _ :: rest, tag => t = tag || structDeclared rest tag
  | _ :: rest, tag => structDeclared rest tag

/-- The member list of a struct, `none` while the struct type is incomplete
(declared but nowhere defined with its members). -/
def structMembers : List Decl → String → Option (List (String × CType))
  | [], _ => none
  | .structDef t ms :: rest, tag =>
      if t = tag then some ms else structMembers rest tag
  | _ :: rest, tag => structMembers rest tag

/-- Number of arguments a call must pass; `()` leaves it unspecified. -/
def arity : Params → Option Nat
  | .voidList => some 0
  | .unspecified => none
  | .typed ps => some ps.length

/-- The type a pointer points to. -/
def pointee : CType → Option CType
  | .pointer t => some t
  | _ => none

/-- Whether the type carries a `const` qualifier at its top level. -/
def isConst : CType → Bool
  | .const _ => true
  | _ => false

/-- The type without its top-level `const` qualifiers. -/
def unqualified : CType → CType
  | .const t => unqualified t
  | t => t

/-- The struct tag an (unqualified) type denotes, through typedefs. -/
def structOf (tu : List Decl) : CType → Option String
  | .structTag tag => some tag
  | .typedefName n => resolveTypedef tu n
  | _ => none

/-- Type of the expression `e->m` for `e` of type `t`: `t` has to point to a
struct whose member list is known and contains `m`.  `none` means that the
member access is not a valid expression in the translation unit. -/
def memberType (tu : List Decl) (t : CType) (m : String) : Option CType :=
  match pointee t with
  | none => none
  | some p =>
    match structOf tu (unqualified p) with
    | none => none
    | some tag =>
      match structMembers tu tag with
      | none => none
      | some ms => (ms.lookup m).map (fun ty => if isConst p then .const ty else ty)

/-- Whether an assignment through a pointer of type `t` (to `*e` or to a
member `e->m`) has a modifiable left operand: the pointed-to type must not be
const-qualified. -/
def canWriteThrough (t : CType) : Bool :=
  match pointee t with
  | none => false
  | some p => !isConst p

/-! ## The grammar table and the entry point

The header only declares `tree_sitter_modelica`; its body and the table it
returns live in the generated parser source, which is not part of the sources
at hand.  The definitions of this section therefore follow the specification's
data model (section 3) and external interface (section 6). -/

/-- Modelled from the spec: the actions of a Grammar Table, "action {shift,
reduce, accept, error}".  Missing from the sources: the generated parser
source that defines the table. -/
inductive Action where
  | shift (state : Nat)
  | reduce (production : Nat)
  | accept
  | error
  deriving DecidableEq, Repr

/-- Modelled from the spec: the Grammar Table, which "maps (state, lookahead
symbol) → action", "carries symbol names, field names, precedence levels, and
a flag per state indicating whether external-scanner tokens are valid there".
Missing from the sources: the generated parser source that defines the
table. -/
structure GrammarTable where
  action : Nat → Nat → Action
  symbolNames : List String
  fieldNames : List String
  precedence : Nat → Int
  externalTokensValid : Nat → Bool

/-- Modelled from the spec: the "handle to a compiled Grammar Table" that the
entry point returns, the address of the table.  Missing from the sources: the
definition of `struct TSLanguage`. -/
structure Handle where
  addr : Nat
  deriving DecidableEq, Repr

/-- Modelled from the spec: the part of the process state the entry point can
depend on, given that it has no parameter: the process-wide Grammar Table
("immutable, process-wide, loaded once", "owned for the lifetime of the
process") and the address it is kept at.  Missing from the sources: the
generated parser source that holds the table. -/
structure Process where
  grammar : GrammarTable
  grammarAddr : Nat

/-- Modelled from the spec: the body of `tree_sitter_modelica`, declared on
line 10 of the header and defined in the generated parser source, which is
missing.  Section 6: "a function returning an opaque, read-only handle to a
compiled Grammar Table"; section 3: the table is "never mutated after
construction", so the process state is handed back as it was received. -/
def tree_sitter_modelica (p : Process) : Handle × Process :=
  (⟨p.grammarAddr⟩, p)

/-- Modelled from the spec: the table a handle designates in a process state,
`none` for a handle that is not the one of the process-wide table. -/
def tableAt (p : Process) (h : Handle) : Option GrammarTable :=
  if h.addr = p.grammarAddr then some p.grammar else none

/-- The process state after `n` successive calls of the entry point. -/
def afterCalls : Nat → Process → Process
  | 0, p => p
  | n + 1, p => afterCalls n (tree_sitter_modelica p).2

/-! ## Lemmas -/

/-- A header that did define the struct would expose its members: the member
lookup is not constantly `none`. -/
theorem memberType_of_defined_struct :
    memberType
      [.structDef "TSLanguage" [("version", .void)], .typedefStruct "TSLanguage" "TSLanguage"]
      handleType "version" = some (.const .void) := by
  decide

/-- When the include guard is already defined the header contributes no
declaration at all. -/
theorem preprocess_header_guarded (defs : List String) (h : guardMacro ∈ defs) :
    preprocess defs header = [] := by
  have hg : "TREE_SITTER_MODELICA_H_" ∈ defs := h
  simp [preprocess, header, preprocessAux, live, hg]

/-- Calls of the entry point leave the process state as it was. -/
theorem afterCalls_eq (n : Nat) (p : Process) : afterCalls n p = p := by
  induction n generalizing p with
  | zero => rfl
  | succ k ih => simp [afterCalls, tree_sitter_modelica, ih]

/-- The tokens of the header that a macro definition could replace. -/
theorem headerTokens_eq :
    headerTokens = ["typedef", "struct", "TSLanguage", "TSLanguage", "extern", "const",
      "TSLanguage", "tree_sitter_modelica", "void"] := by
  decide

/-! ## Claims -/

/-- C1: on first inclusion (include guard not yet defined) in a translation
unit where no token of the header's declaration lines (`typedef`, `struct`,
`TSLanguage`, `extern`, `const`, `tree_sitter_modelica`, `void`) is a defined
macro, be it compiled as C or with `__cplusplus` defined, the header declares
`tree_sitter_modelica` with the parameter list `(void)`, so a call passes no
argument, and with return type `const TSLanguage *`, a pointer to a
const-qualified type; `TSLanguage` names a struct that the header declares but
gives no member list for, so no member access `e->m` through the returned
pointer is a valid expression, and no assignment through the returned pointer
has a modifiable left operand.  The second hypothesis keeps the statement to
the macro sets on which `preprocess` agrees with the C preprocessor. -/
theorem header_entry_point_read_only_handle (defs : List String)
    (hguard : guardMacro ∉ defs)
    (hclean : ∀ t ∈ headerTokens, t ∉ defs) :
    lookupFun (preprocess defs header) "tree_sitter_modelica"
        = some (handleType, Params.voidList)
      ∧ arity Params.voidList = some 0
      ∧ pointee handleType = some (.const (.typedefName "TSLanguage"))
      ∧ isConst (.const (.typedefName "TSLanguage")) = true
      ∧ resolveTypedef (preprocess defs header) "TSLanguage" = some "TSLanguage"
      ∧ structDeclared (preprocess defs header) "TSLanguage" = true
      ∧ structMembers (preprocess defs header) "TSLanguage" = none
      ∧ (∀ m : String, memberType (preprocess defs header) handleType m = none)
      ∧ canWriteThrough handleType = false := by
  have hg : "TREE_SITTER_MODELICA_H_" ∉ defs := hguard
  have _hfun : "tree_sitter_modelica" ∉ defs := hclean _ (by decide)
  by_cases hc : "__cplusplus" ∈ defs <;>
    simp [preprocess, header, preprocessAux, live, hg, hc, lookupFun, arity, pointee, isConst,
      resolveTypedef, structDeclared, structMembers, memberType, canWriteThrough, handleType,
      structOf, unqualified]

/-- Witness for C1: a C++ translation unit, where `__cplusplus` is the only
macro defined before the header is included. -/
theorem header_entry_point_read_only_handle_witness :
    guardMacro ∉ ["__cplusplus"]
      ∧ (∀ t ∈ headerTokens, t ∉ ["__cplusplus"])
      ∧ lookupFun (preprocess ["__cplusplus"] header) "tree_sitter_modelica"
          = some (handleType, Params.voidList)
      ∧ arity Params.voidList = some 0
      ∧ pointee handleType = some (.const (.typedefName "TSLanguage"))
      ∧ isConst (.const (.typedefName "TSLanguage")) = true
      ∧ resolveTypedef (preprocess ["__cplusplus"] header) "TSLanguage" = some "TSLanguage"
      ∧ structDeclared (preprocess ["__cplusplus"] header) "TSLanguage" = true
      ∧ structMembers (preprocess ["__cplusplus"] header) "TSLanguage" = none
      ∧ (∀ m : String, memberType (preprocess ["__cplusplus"] header) handleType m = none)
      ∧ canWriteThrough handleType = false :=
  ⟨by decide, by decide,
    header_entry_point_read_only_handle ["__cplusplus"] (by decide) (by decide)⟩

/-- C2: the declared parameter list of `tree_sitter_modelica` is `(void)`
(no argument), and in the model of its body any two calls, after any numbers
`n` and `m` of earlier calls, return the same handle; that handle designates
the process-wide Grammar Table, which is the table the process started
with. -/
theorem entry_point_repeatable (p : Process) (n m : Nat) :
    (lookupFun (preprocess [] header) "tree_sitter_modelica").map (fun d => arity d.2)
        = some (some 0)
      ∧ (tree_sitter_modelica (afterCalls n p)).1 = (tree_sitter_modelica (afterCalls m p)).1
      ∧ tableAt (afterCalls n p) (tree_sitter_modelica (afterCalls n p)).1 = some p.grammar
      ∧ tableAt (afterCalls m p) (tree_sitter_modelica (afterCalls n p)).1 = some p.grammar
      ∧ (afterCalls n p).grammar = p.grammar := by
  refine ⟨by decide, ?_⟩
  simp [afterCalls_eq, tree_sitter_modelica, tableAt]

end TreeSitterModelica
